import Mathlib

/-!
Verification development for the REPUBLIC multiplayer relay.

The definitions below are a shallow embedding of the room-registry server
(`relay_server.py`) and the client session manager (`network.py`).
Python dictionaries are modelled as insertion-ordered association lists
(`dlookup`, `dinsert`, `derase`, `dmodify`), sockets as natural-number
handles, and every outbound transmission is recorded in an explicit list of
`(socket, payload)` pairs.
-/

namespace Republic

/-- First-match lookup in an association list (Python `d.get(k)` / `d[k]`). -/
def dlookup {α : Type _} : List (String × α) → String → Option α
  | [], _ => none
  | (k, v) :: m, k0 => if k0 = k then some v else dlookup m k0

/-- Key-membership test (Python `k in d`). -/
def dcontains {α : Type _} (m : List (String × α)) (k : String) : Bool :=
  (dlookup m k).isSome

/-- Python `d[k] = v`: replace the value in place when the key is present,
otherwise append the new binding at the end (insertion-order semantics). -/
def dinsert {α : Type _} : List (String × α) → String → α → List (String × α)
  | [], k, v => [(k, v)]
  | (k0, v0) :: m, k, v =>
    if k = k0 then (k0, v) :: m else (k0, v0) :: dinsert m k v

/-- Python `d.pop(k, None)` / `del d[k]`: drop the binding for `k`. -/
def derase {α : Type _} : List (String × α) → String → List (String × α)
  | [], _ => []
  | (k0, v0) :: m, k =>
    if k = k0 then derase m k else (k0, v0) :: derase m k

/-- Update the value stored at key `k` in place (Python `d[k]["f"] = x`). -/
def dmodify {α : Type _} : List (String × α) → String → (α → α) → List (String × α)
  | [], _, _ => []
  | (k0, v0) :: m, k, f =>
    if k = k0 then (k0, f v0) :: dmodify m k f else (k0, v0) :: dmodify m k f

/-- The key list of an association list (Python `d.keys()`). -/
def dkeys {α : Type _} (m : List (String × α)) : List String :=
  m.map Prod.fst

/-- Model of Python `str.upper()` for the ASCII strings the relay handles. -/
def pyUpper (s : String) : String :=
  ⟨s.data.map Char.toUpper⟩

/-- The unambiguous room-code alphabet of `NetworkManager._generate_room_code`. -/
def room_code_alphabet : String := "ABCDEFGHJKLMNPQRSTUVWXYZ23456789"

/-- A player-info record as stored in `Room.player_info` on the server. -/
structure PlayerInfo where
  player_id : String
  name : String
  color_key : String
  is_host : Bool
  is_ready : Bool
deriving DecidableEq

/-- A game room (`Room` in `relay_server.py`).  A websocket is a `Nat` handle. -/
structure Room where
  code : String
  host_id : String
  players : List (String × Nat)
  player_info : List (String × PlayerInfo)
  game_started : Bool
  created_at : Nat
  last_activity : Nat
deriving DecidableEq

/-- `Room.add_player`. -/
def Room.add_player (r : Room) (now : Nat) (player_id : String) (websocket : Nat)
    (info : PlayerInfo) : Room :=
  { r with players := dinsert r.players player_id websocket,
           player_info := dinsert r.player_info player_id info,
           last_activity := now }

/-- `Room.remove_player`. -/
def Room.remove_player (r : Room) (now : Nat) (player_id : String) : Room :=
  { r with players := derase r.players player_id,
           player_info := derase r.player_info player_id,
           last_activity := now }

/-- `Room.is_empty`. -/
def Room.is_empty (r : Room) : Bool :=
  r.players.isEmpty

/-- `Room.is_full` (max 4 players). -/
def Room.is_full (r : Room) : Bool :=
  decide (4 ≤ r.players.length)

/-- The server's global mutable state: the `rooms` and `player_rooms`
registries plus the lifetime counters of `stats` that the handlers touch. -/
structure ServerState where
  rooms : List (String × Room)
  player_rooms : List (String × String)
  total_rooms_created : Nat
  total_games_played : Nat
deriving DecidableEq

/-- The empty registry at server start. -/
def initialServerState : ServerState :=
  { rooms := [], player_rooms := [], total_rooms_created := 0, total_games_played := 0 }

/-- A server-constructed reply message (`type` tag plus `data` payload of
`send_json` / `broadcast_to_room`). -/
inductive ServerMsg where
  | room_error (message : String)
  | room_created (room_code : String)
  | room_joined (room_code : String) (players : List PlayerInfo) (assigned_color : String)
  | player_joined (player : PlayerInfo)
  | player_left (player_id : String)
  | host_changed (new_host_id : String)
deriving DecidableEq

/-- What goes over a socket: either a freshly JSON-encoded server message
(with its timestamp) or a verbatim pass-through of an inbound frame. -/
inductive Payload where
  | json (msg : ServerMsg) (timestamp : Nat)
  | raw (frame : String)
deriving DecidableEq

/-- One transmission: destination socket and payload. -/
abbrev Sent := Nat × Payload

/-- `broadcast_to_room`: send to every player of the room except `exclude_id`. -/
def broadcast_to_room (now : Nat) (room : Room) (msg : ServerMsg)
    (exclude_id : Option String) : List Sent :=
  (room.players.filter (fun e => decide (exclude_id ≠ some e.1))).map
    (fun e => (e.2, Payload.json msg now))

/-- The `data` payload of a `create_room` / `join_room` request
(`data.get` with defaults happens inside the handlers). -/
structure RoomReqData where
  room_code : Option String
  player_name : Option String
  color_key : Option String
deriving DecidableEq

/-- `handle_create_room`. -/
def handle_create_room (now : Nat) (st : ServerState) (websocket : Nat)
    (sender_id : String) (data : RoomReqData) : ServerState × List Sent :=
  let room_code := pyUpper (data.room_code.getD "")
  let player_name := data.player_name.getD "Host"
  let color_key := data.color_key.getD "red"
  if room_code = "" ∨ room_code.length ≠ 4 then
    (st, [(websocket, Payload.json (ServerMsg.room_error "Invalid room code") now)])
  else if dcontains st.rooms room_code then
    (st, [(websocket,
      Payload.json (ServerMsg.room_error "Room already exists. Try a different code.") now)])
  else
    let room : Room :=
      { code := room_code, host_id := sender_id, players := [], player_info := [],
        game_started := false, created_at := now, last_activity := now }
    let room := room.add_player now sender_id websocket
      ⟨sender_id, player_name, color_key, true, true⟩
    ({ st with rooms := dinsert st.rooms room_code room,
               player_rooms := dinsert st.player_rooms sender_id room_code,
               total_rooms_created := st.total_rooms_created + 1 },
     [(websocket, Payload.json (ServerMsg.room_created room_code) now)])

/-- `handle_join_room`. -/
def handle_join_room (now : Nat) (st : ServerState) (websocket : Nat)
    (sender_id : String) (data : RoomReqData) : ServerState × List Sent :=
  let room_code := pyUpper (data.room_code.getD "")
  let player_name := data.player_name.getD "Player"
  let color_key := data.color_key.getD "blue"
  if room_code = "" then
    (st, [(websocket,
      Payload.json (ServerMsg.room_error "Room not found. Check the code and try again.") now)])
  else
    match dlookup st.rooms room_code with
    | none =>
      (st, [(websocket,
        Payload.json (ServerMsg.room_error "Room not found. Check the code and try again.") now)])
    | some room =>
      if room.is_full then
        (st, [(websocket,
          Payload.json (ServerMsg.room_error "Room is full (max 4 players).") now)])
      else if room.game_started then
        (st, [(websocket,
          Payload.json (ServerMsg.room_error "Game already in progress.") now)])
      else
        let used_colors := room.player_info.map (fun e => e.2.color_key)
        let color_key :=
          if used_colors.contains color_key then
            match ["red", "blue", "green", "purple"].find?
                (fun c => !used_colors.contains c) with
            | some c => c
            | none => color_key
          else color_key
        let player_info : PlayerInfo := ⟨sender_id, player_name, color_key, false, true⟩
        let room := room.add_player now sender_id websocket player_info
        let existing_players :=
          (room.player_info.filter (fun e => decide (e.1 ≠ sender_id))).map (fun e => e.2)
        ({ st with rooms := dinsert st.rooms room_code room,
                   player_rooms := dinsert st.player_rooms sender_id room_code },
         (websocket,
           Payload.json (ServerMsg.room_joined room_code existing_players color_key) now)
           :: broadcast_to_room now room (ServerMsg.player_joined player_info) (some sender_id))

/-- `handle_leave_room` (also run on socket close). -/
def handle_leave_room (now : Nat) (st : ServerState) (sender_id : String) :
    ServerState × List Sent :=
  match dlookup st.player_rooms sender_id with
  | none => (st, [])
  | some room_code =>
    let player_rooms := derase st.player_rooms sender_id
    match dlookup st.rooms room_code with
    | none => ({ st with player_rooms := player_rooms }, [])
    | some room =>
      let room := room.remove_player now sender_id
      let outs := broadcast_to_room now room (ServerMsg.player_left sender_id) none
      match room.players with
      | [] =>
        ({ st with player_rooms := player_rooms, rooms := derase st.rooms room_code }, outs)
      | (first_id, _) :: _ =>
        if sender_id = room.host_id then
          let room := { room with host_id := first_id }
          let room :=
            if dcontains room.player_info first_id then
              let info := dmodify room.player_info first_id (fun i => { i with is_host := true })
              { room with player_info := info }
            else room
          ({ st with player_rooms := player_rooms,
                     rooms := dinsert st.rooms room_code room },
           outs ++ broadcast_to_room now room (ServerMsg.host_changed first_id) none)
        else
          ({ st with player_rooms := player_rooms,
                     rooms := dinsert st.rooms room_code room }, outs)

/-- The `data` payload of a game-traffic message (only `room_code` is read). -/
structure GameMsgData where
  room_code : Option String
deriving DecidableEq

/-- `data.get("room_code") or player_rooms.get(sender_id)` (empty string and
absence are both falsy). -/
def resolve_room_code (st : ServerState) (sender_id : String) (data : GameMsgData) :
    Option String :=
  match data.room_code with
  | some s => if s = "" then dlookup st.player_rooms sender_id else some s
  | none => dlookup st.player_rooms sender_id

/-- `handle_game_message`: forward the original frame to the rest of the room. -/
def handle_game_message (now : Nat) (st : ServerState) (sender_id : String)
    (message_str : String) (msg_type : String) (data : GameMsgData) :
    ServerState × List Sent :=
  match resolve_room_code st sender_id data with
  | none => (st, [])
  | some room_code =>
    if room_code = "" then (st, [])
    else
      match dlookup st.rooms room_code with
      | none => (st, [])
      | some room =>
        let room := { room with last_activity := now }
        let room := if msg_type = "game_start" then { room with game_started := true } else room
        let total_games_played :=
          if msg_type = "game_start" then st.total_games_played + 1
          else st.total_games_played
        ({ st with rooms := dinsert st.rooms room_code room,
                   total_games_played := total_games_played },
         (room.players.filter (fun e => decide (e.1 ≠ sender_id))).map
           (fun e => (e.2, Payload.raw message_str)))

/-- One `rooms.pop(room_code, None)` plus purge of its players from
`player_rooms`, as in the body of `cleanup_stale_rooms`. -/
def cleanup_step (acc : ServerState) (room_code : String) : ServerState :=
  match dlookup acc.rooms room_code with
  | none => acc
  | some room =>
    { acc with rooms := derase acc.rooms room_code,
               player_rooms := room.players.foldl (fun pr e => derase pr e.1) acc.player_rooms }

/-- One maintenance pass of `cleanup_stale_rooms`: collect the rooms whose
`last_activity` is more than 3600 seconds old, then pop each and purge its
players from `player_rooms`. -/
def cleanup_stale_rooms_pass (now : Nat) (st : ServerState) : ServerState :=
  let stale_rooms :=
    (st.rooms.filter (fun e => decide (3600 < now - e.2.last_activity))).map Prod.fst
  stale_rooms.foldl cleanup_step st

/-- The message kinds that `handle_message` routes to `handle_game_message`. -/
def game_message_types : List String :=
  ["game_state", "game_action", "turn_end", "game_start", "chat"]

/-- A registry-affecting operation, as dispatched by `handle_message`
plus the maintenance pass. -/
inductive Req where
  | create_room (now websocket : Nat) (sender_id : String) (data : RoomReqData)
  | join_room (now websocket : Nat) (sender_id : String) (data : RoomReqData)
  | leave_room (now : Nat) (sender_id : String)
  | game (now : Nat) (sender_id message_str msg_type : String) (data : GameMsgData)
  | cleanup (now : Nat)
deriving DecidableEq

/-- One step of the server: dispatch a request to its handler. -/
def step (st : ServerState) : Req → ServerState × List Sent
  | Req.create_room now ws sender d => handle_create_room now st ws sender d
  | Req.join_room now ws sender d => handle_join_room now st ws sender d
  | Req.leave_room now sender => handle_leave_room now st sender
  | Req.game now sender raw mt d =>
    if mt ∈ game_message_types then handle_game_message now st sender raw mt d
    else (st, [])
  | Req.cleanup now => (cleanup_stale_rooms_pass now st, [])

/-! ## Client session manager (`network.py`) -/

/-- `ConnectionState` of the client session. -/
inductive ConnectionState where
  | disconnected
  | connecting
  | connected
  | in_room
  | game_active
  | error
deriving DecidableEq

/-- The client's `MessageType` enumeration, exactly as declared in
`network.py` (seventeen members). -/
inductive MessageType where
  | CREATE_ROOM
  | JOIN_ROOM
  | LEAVE_ROOM
  | ROOM_CREATED
  | ROOM_JOINED
  | PLAYER_JOINED
  | PLAYER_LEFT
  | ROOM_ERROR
  | GAME_START
  | GAME_STATE
  | GAME_ACTION
  | TURN_END
  | GAME_OVER
  | PING
  | PONG
  | CHAT
  | ERROR
deriving DecidableEq

/-- The `(value, member)` table of the client's `MessageType` enumeration. -/
def message_type_values : List (String × MessageType) :=
  [("create_room", MessageType.CREATE_ROOM), ("join_room", MessageType.JOIN_ROOM),
   ("leave_room", MessageType.LEAVE_ROOM), ("room_created", MessageType.ROOM_CREATED),
   ("room_joined", MessageType.ROOM_JOINED), ("player_joined", MessageType.PLAYER_JOINED),
   ("player_left", MessageType.PLAYER_LEFT), ("room_error", MessageType.ROOM_ERROR),
   ("game_start", MessageType.GAME_START), ("game_state", MessageType.GAME_STATE),
   ("game_action", MessageType.GAME_ACTION), ("turn_end", MessageType.TURN_END),
   ("game_over", MessageType.GAME_OVER), ("ping", MessageType.PING),
   ("pong", MessageType.PONG), ("chat", MessageType.CHAT),
   ("error", MessageType.ERROR)]

/-- The value-based constructor `MessageType(s)`: the enum member whose string
value is `s`, or `none` (Python raises `ValueError`). -/
def messageTypeOfString (s : String) : Option MessageType :=
  dlookup message_type_values s

/-- The string values of the client's `MessageType` members. -/
def recognized_kinds : List String :=
  ["create_room", "join_room", "leave_room", "room_created", "room_joined",
   "player_joined", "player_left", "room_error", "game_start", "game_state",
   "game_action", "turn_end", "game_over", "ping", "pong", "chat", "error"]

/-- A parsed JSON value (the result of a successful `json.loads`). -/
inductive Json where
  | null
  | bool (b : Bool)
  | num (n : Int)
  | str (s : String)
  | arr (elems : List Json)
  | obj (fields : List (String × Json))

/-- The exception class raised while decoding an already-parsed frame:
`KeyError` (missing `"type"`), `ValueError` (unrecognized enum value), or
`TypeError` (the parsed value is not an object). -/
inductive DecodeErr where
  | keyErr
  | valueErr
  | typeErr
deriving DecidableEq

/-- `NetworkMessage` (client dataclass).  The payload fields keep whatever
JSON value the frame carried, since Python does not enforce the annotations. -/
structure NetworkMessage where
  type : MessageType
  data : Json
  sender_id : Json
  timestamp : Json

/-- `NetworkMessage.from_json` applied to an already-parsed frame: read
`obj["type"]`, look the string up in `MessageType`, and take the remaining
envelope fields with their defaults (`now` models `time.time()`). -/
def NetworkMessage.from_json (now : Int) (j : Json) : Except DecodeErr NetworkMessage :=
  match j with
  | Json.obj fields =>
    match dlookup fields "type" with
    | none => Except.error DecodeErr.keyErr
    | some (Json.str s) =>
      match messageTypeOfString s with
      | none => Except.error DecodeErr.valueErr
      | some t =>
        Except.ok
          { type := t,
            data := (dlookup fields "data").getD (Json.obj []),
            sender_id := (dlookup fields "sender_id").getD Json.null,
            timestamp := (dlookup fields "timestamp").getD (Json.num now) }
    | some _ => Except.error DecodeErr.valueErr
  | _ => Except.error DecodeErr.typeErr

/-- The client-side `Player` dataclass. -/
structure Player where
  player_id : String
  name : String
  color_key : String
  is_host : Bool
  is_ready : Bool
  is_connected : Bool
deriving DecidableEq

/-- The mutable fields of `NetworkManager` that the modelled methods touch. -/
structure ClientState where
  state : ConnectionState
  player_id : Option String
  player_name : String
  player_color : String
  is_host : Bool
  room_code : Option String
  players : List (String × Player)
  websocket : Option Nat
deriving DecidableEq

namespace NetworkManager

/-- `NetworkManager.reconnect_attempts`. -/
def reconnect_attempts : Nat := 3

/-- The attempt loop of `connect`: each entry of `attempt_results` tells
whether the corresponding `websockets.connect` call succeeds before its
timeout; after the last failed attempt the state becomes `error`. -/
def connectAttempts (st : ClientState) (sock : Nat) :
    Nat → List Bool → ClientState × Bool
  | 0, _ => ({ st with state := ConnectionState.error }, false)
  | _ + 1, [] => ({ st with state := ConnectionState.error }, false)
  | n + 1, ok :: rest =>
    if ok then ({ st with state := ConnectionState.connected, websocket := some sock }, true)
    else connectAttempts st sock n rest

/-- `NetworkManager.connect`.  When already past `disconnected` it returns
without touching anything; otherwise it moves to `connecting`, overwrites
`player_id` with a fresh id, and runs the bounded attempt loop. -/
def connect (websockets_available : Bool) (st : ClientState) (fresh_id : String)
    (sock : Nat) (attempt_results : List Bool) : ClientState × Bool :=
  if websockets_available = false then (st, false)
  else if st.state ≠ ConnectionState.disconnected then
    (st, decide (st.state = ConnectionState.connected ∨
                 st.state = ConnectionState.in_room ∨
                 st.state = ConnectionState.game_active))
  else
    connectAttempts
      { st with state := ConnectionState.connecting, player_id := some fresh_id }
      sock reconnect_attempts attempt_results

/-- `NetworkManager.leave_room`: when `room_code` is truthy, build the
`leave_room` envelope and hand it to `_send_message` (which transmits only
when a websocket exists); then clear the room fields and force the state to
`connected`.  Returns the new state and the transmitted messages. -/
def leave_room (now : Int) (st : ClientState) : ClientState × List NetworkMessage :=
  let sends :=
    match st.room_code with
    | some code =>
      if code = "" then []
      else if st.websocket.isSome then
        [{ type := MessageType.LEAVE_ROOM,
           data := Json.obj [("room_code", Json.str code)],
           sender_id := match st.player_id with
                        | some p => Json.str p
                        | none => Json.null,
           timestamp := Json.num now }]
      else []
    | none => []
  ({ st with room_code := none, players := [], state := ConnectionState.connected }, sends)

end NetworkManager

/-! ## Lemmas about the dictionary operations -/

theorem dlookup_nil {α : Type _} (k : String) : dlookup ([] : List (String × α)) k = none :=
  rfl

theorem dlookup_cons {α : Type _} (k : String) (v : α) (m : List (String × α)) (k0 : String) :
    dlookup ((k, v) :: m) k0 = if k0 = k then some v else dlookup m k0 :=
  rfl

theorem dlookup_dinsert {α : Type _} (m : List (String × α)) (k : String) (v : α)
    (k0 : String) :
    dlookup (dinsert m k v) k0 = if k0 = k then some v else dlookup m k0 := by
  induction m with
  | nil => simp [dinsert, dlookup]
  | cons e m ih =>
    obtain ⟨k1, v1⟩ := e
    simp only [dinsert]
    split_ifs with h h0 h0 <;> simp_all [dlookup_cons]

theorem dlookup_derase {α : Type _} (m : List (String × α)) (k k0 : String) :
    dlookup (derase m k) k0 = if k0 = k then none else dlookup m k0 := by
  induction m with
  | nil => simp [derase, dlookup]
  | cons e m ih =>
    obtain ⟨k1, v1⟩ := e
    simp only [derase]
    split_ifs with h h0 h0 <;> simp_all [dlookup_cons]

theorem dcontains_iff {α : Type _} {m : List (String × α)} {k : String} :
    dcontains m k = true ↔ k ∈ dkeys m := by
  induction m with
  | nil => simp [dcontains, dlookup, dkeys]
  | cons e m ih =>
    obtain ⟨k1, v1⟩ := e
    simp only [dcontains, dlookup_cons, dkeys, List.map_cons, List.mem_cons]
    by_cases h : k = k1
    · simp [h]
    · simpa [h, dcontains, dkeys] using ih

theorem dkeys_dinsert {α : Type _} (m : List (String × α)) (k : String) (v : α) :
    dkeys (dinsert m k v) = if k ∈ dkeys m then dkeys m else dkeys m ++ [k] := by
  induction m with
  | nil => simp [dinsert, dkeys]
  | cons e m ih =>
    obtain ⟨k1, v1⟩ := e
    simp only [dinsert, dkeys, List.map_cons]
    split_ifs with h h0 h0 <;> simp_all [dkeys, List.mem_cons]

theorem dkeys_derase {α : Type _} (m : List (String × α)) (k : String) :
    dkeys (derase m k) = (dkeys m).filter (fun x => decide (x ≠ k)) := by
  induction m with
  | nil => simp [derase, dkeys]
  | cons e m ih =>
    obtain ⟨k1, v1⟩ := e
    simp only [derase, dkeys, List.map_cons, List.filter_cons]
    split_ifs with h h0 h0 <;> simp_all [dkeys]

theorem dkeys_dmodify {α : Type _} (m : List (String × α)) (k : String) (f : α → α) :
    dkeys (dmodify m k f) = dkeys m := by
  induction m with
  | nil => simp [dmodify]
  | cons e m ih =>
    obtain ⟨k1, v1⟩ := e
    by_cases h : k = k1 <;> simp [dmodify, h, dkeys, ih] at ih ⊢ <;> simp [ih]

theorem mem_dinsert {α : Type _} {a : String × α} {m : List (String × α)} {k : String}
    {v : α} (h : a ∈ dinsert m k v) : a = (k, v) ∨ a ∈ m := by
  induction m with
  | nil => simpa [dinsert] using h
  | cons e m ih =>
    obtain ⟨k1, v1⟩ := e
    by_cases hk : k = k1
    · subst hk
      simp only [dinsert] at h
      rw [if_true] at h
      rcases List.mem_cons.mp h with h3 | h3
      · exact Or.inl h3
      · exact Or.inr (List.mem_cons_of_mem _ h3)
    · simp only [dinsert] at h
      rw [if_neg hk] at h
      rcases List.mem_cons.mp h with h3 | h3
      · exact Or.inr (by simp [h3])
      · rcases ih h3 with h4 | h4
        · exact Or.inl h4
        · exact Or.inr (List.mem_cons_of_mem _ h4)

theorem mem_derase {α : Type _} {a : String × α} {m : List (String × α)} {k : String}
    (h : a ∈ derase m k) : a ∈ m ∧ a.1 ≠ k := by
  induction m with
  | nil => simp [derase] at h
  | cons e m ih =>
    obtain ⟨k1, v1⟩ := e
    by_cases hk : k = k1
    · subst hk
      simp only [derase] at h
      rw [if_true] at h
      exact ⟨List.mem_cons_of_mem _ (ih h).1, (ih h).2⟩
    · simp only [derase] at h
      rw [if_neg hk] at h
      rcases List.mem_cons.mp h with h3 | h3
      · subst h3
        exact ⟨List.mem_cons_self _ _, fun hh => hk hh.symm⟩
      · exact ⟨List.mem_cons_of_mem _ (ih h3).1, (ih h3).2⟩

theorem mem_dmodify {α : Type _} {a : String × α} {m : List (String × α)} {k : String}
    {f : α → α} (h : a ∈ dmodify m k f) :
    a ∈ m ∨ ∃ v, (k, v) ∈ m ∧ a = (k, f v) := by
  induction m with
  | nil => simp [dmodify] at h
  | cons e m ih =>
    obtain ⟨k1, v1⟩ := e
    by_cases hk : k = k1
    · subst hk
      simp only [dmodify] at h
      rw [if_true] at h
      rcases List.mem_cons.mp h with h3 | h3
      · exact Or.inr ⟨v1, List.mem_cons_self _ _, h3⟩
      · rcases ih h3 with h4 | ⟨v2, hv2, ha⟩
        · exact Or.inl (List.mem_cons_of_mem _ h4)
        · exact Or.inr ⟨v2, List.mem_cons_of_mem _ hv2, ha⟩
    · simp only [dmodify] at h
      rw [if_neg hk] at h
      rcases List.mem_cons.mp h with h3 | h3
      · exact Or.inl (by simp [h3])
      · rcases ih h3 with h4 | ⟨v2, hv2, ha⟩
        · exact Or.inl (List.mem_cons_of_mem _ h4)
        · exact Or.inr ⟨v2, List.mem_cons_of_mem _ hv2, ha⟩

theorem dlookup_mem {α : Type _} {m : List (String × α)} {k : String} {v : α}
    (h : dlookup m k = some v) : (k, v) ∈ m := by
  induction m with
  | nil => simp [dlookup] at h
  | cons e m ih =>
    obtain ⟨k1, v1⟩ := e
    simp only [dlookup_cons] at h
    by_cases hk : k = k1
    · simp only [if_pos hk, Option.some.injEq] at h
      simp [hk, ← h]
    · simp only [if_neg hk] at h
      exact List.mem_cons_of_mem _ (ih h)

theorem dlookup_eq_some_of_mem_nodup {α : Type _} {m : List (String × α)} {k : String}
    {v : α} (hnd : (dkeys m).Nodup) (h : (k, v) ∈ m) : dlookup m k = some v := by
  induction m with
  | nil => simp at h
  | cons e m ih =>
    obtain ⟨k1, v1⟩ := e
    simp only [dkeys, List.map_cons, List.nodup_cons] at hnd
    rcases List.mem_cons.mp h with h3 | h3
    · rw [Prod.mk.injEq] at h3
      obtain ⟨hk, hv⟩ := h3
      subst hk
      subst hv
      simp [dlookup_cons]
    · have hk : ¬k = k1 := by
        intro hkk
        subst hkk
        exact hnd.1 (List.mem_map_of_mem Prod.fst h3)
      rw [dlookup_cons, if_neg hk]
      exact ih (by simpa [dkeys] using hnd.2) h3

theorem length_dinsert_le {α : Type _} (m : List (String × α)) (k : String) (v : α) :
    (dinsert m k v).length ≤ m.length + 1 := by
  induction m with
  | nil => simp [dinsert]
  | cons e m ih =>
    obtain ⟨k1, v1⟩ := e
    by_cases h : k = k1
    · subst h
      simp [dinsert]
    · simp only [dinsert, if_neg h, List.length_cons]
      omega

theorem length_derase_le {α : Type _} (m : List (String × α)) (k : String) :
    (derase m k).length ≤ m.length := by
  induction m with
  | nil => simp [derase]
  | cons e m ih =>
    obtain ⟨k1, v1⟩ := e
    by_cases h : k = k1
    · subst h
      simp only [derase, if_pos rfl, List.length_cons]
      exact le_trans ih (Nat.le_succ _)
    · simp only [derase, if_neg h, List.length_cons]
      omega

theorem dinsert_ne_nil {α : Type _} (m : List (String × α)) (k : String) (v : α) :
    dinsert m k v ≠ [] := by
  cases m with
  | nil => simp [dinsert]
  | cons e m =>
    obtain ⟨k1, v1⟩ := e
    by_cases h : k = k1 <;> simp [dinsert, h]

theorem dmodify_of_not_mem {α : Type _} {m : List (String × α)} {k : String}
    (f : α → α) (h : k ∉ dkeys m) : dmodify m k f = m := by
  induction m with
  | nil => simp [dmodify]
  | cons e m ih =>
    obtain ⟨k1, v1⟩ := e
    simp only [dkeys, List.map_cons, List.mem_cons] at h
    push_neg at h
    simp [dmodify, h.1, ih (by simpa [dkeys] using h.2)]

/-! ## Concrete states used by the witnesses -/

/-- A one-player room hosted by `"h1"`. -/
def roomOneW : Room :=
  { code := "ABCD", host_id := "h1",
    players := [("h1", 1)],
    player_info := [("h1", ⟨"h1", "Host", "red", true, true⟩)],
    game_started := false, created_at := 0, last_activity := 0 }

/-- A registry holding just `roomOneW` under code `"ABCD"`. -/
def stOneW : ServerState :=
  { rooms := [("ABCD", roomOneW)], player_rooms := [("h1", "ABCD")],
    total_rooms_created := 1, total_games_played := 0 }

/-- The 4-player room hosted by `"a"`, with no free slot. -/
def roomFourW : Room :=
  { code := "FULL", host_id := "a",
    players := [("a", 1), ("b", 2), ("c", 3), ("d", 4)],
    player_info :=
      [("a", ⟨"a", "A", "red", true, true⟩), ("b", ⟨"b", "B", "blue", false, true⟩),
       ("c", ⟨"c", "C", "green", false, true⟩), ("d", ⟨"d", "D", "purple", false, true⟩)],
    game_started := false, created_at := 0, last_activity := 0 }

/-- A registry holding just the full room `roomFourW`. -/
def stFourW : ServerState :=
  { rooms := [("FULL", roomFourW)],
    player_rooms := [("a", "FULL"), ("b", "FULL"), ("c", "FULL"), ("d", "FULL")],
    total_rooms_created := 1, total_games_played := 0 }

/-! ## Claim theorems -/

/-- No room of the registry holds more than 4 entries in `players`. -/
def roomsBounded (st : ServerState) : Prop :=
  ∀ e ∈ st.rooms, e.2.players.length ≤ 4

theorem roomsBounded_create (now ws : Nat) (sender : String) (d : RoomReqData)
    (st : ServerState) (hb : roomsBounded st) :
    roomsBounded (handle_create_room now st ws sender d).1 := by
  by_cases h1 : pyUpper (d.room_code.getD "") = "" ∨ (pyUpper (d.room_code.getD "")).length ≠ 4
  · simp only [handle_create_room]
    rw [if_pos h1]
    exact hb
  · by_cases h2 : dcontains st.rooms (pyUpper (d.room_code.getD "")) = true
    · simp only [handle_create_room]
      rw [if_neg h1, if_pos h2]
      exact hb
    · simp only [handle_create_room]
      rw [if_neg h1, if_neg h2]
      intro e he
      rcases mem_dinsert he with h | h
      · rw [h]
        simp [Room.add_player, dinsert]
      · exact hb e h

theorem roomsBounded_join (now ws : Nat) (sender : String) (d : RoomReqData)
    (st : ServerState) (hb : roomsBounded st) :
    roomsBounded (handle_join_room now st ws sender d).1 := by
  by_cases h0 : pyUpper (d.room_code.getD "") = ""
  · simp only [handle_join_room, h0, if_pos rfl]
    exact hb
  · cases hq : dlookup st.rooms (pyUpper (d.room_code.getD "")) with
    | none =>
      simp only [handle_join_room, if_neg h0, hq]
      exact hb
    | some room =>
      by_cases hf : room.is_full = true
      · simp only [handle_join_room, if_neg h0, hq, hf, if_pos rfl]
        exact hb
      · by_cases hg : room.game_started = true
        · simp only [handle_join_room, if_neg h0, hq, hf, hg]
          exact hb
        · simp only [handle_join_room, if_neg h0, hq, hf, hg]
          intro e he
          simp only [Bool.false_eq_true, if_false, Room.add_player] at he
          rcases mem_dinsert he with h | h
          · rw [h]
            simp only [Room.is_full, decide_eq_true_eq] at hf
            have hlen := length_dinsert_le room.players sender ws
            simp only [Room.add_player]
            omega
          · exact hb e h

theorem leave_rooms_mem (now : Nat) (st : ServerState) (sender : String) :
    ∀ e ∈ (handle_leave_room now st sender).1.rooms,
      e ∈ st.rooms ∨
      ∃ room, (e.1, room) ∈ st.rooms ∧
        e.2.players = derase room.players sender ∧
        dkeys e.2.player_info = dkeys (derase room.player_info sender) ∧
        e.2.players ≠ [] ∧
        ((sender ≠ room.host_id ∧ e.2.host_id = room.host_id) ∨
          e.2.host_id ∈ dkeys e.2.players) := by
  intro e he
  cases hpr : dlookup st.player_rooms sender with
  | none =>
    simp only [handle_leave_room, hpr] at he
    exact Or.inl he
  | some code =>
    cases hrm : dlookup st.rooms code with
    | none =>
      simp only [handle_leave_room, hpr, hrm] at he
      exact Or.inl he
    | some room =>
      cases hpl : derase room.players sender with
      | nil =>
        simp only [handle_leave_room, hpr, hrm, Room.remove_player, hpl] at he
        exact Or.inl (mem_derase he).1
      | cons f rest =>
        obtain ⟨fid, fsock⟩ := f
        simp only [handle_leave_room, hpr, hrm, Room.remove_player, hpl] at he
        by_cases hh : sender = room.host_id
        · rw [if_pos hh] at he
          by_cases hc : dcontains (derase room.player_info sender) fid = true
          · rw [if_pos hc] at he
            rcases mem_dinsert he with h | h
            · refine Or.inr ⟨room, ?_, ?_, ?_, ?_, ?_⟩
              · rw [h]
                exact dlookup_mem hrm
              · rw [h, hpl]
              · rw [h]
                simp [dkeys_dmodify]
              · rw [h]
                simp
              · rw [h]
                simp [dkeys_dmodify, dkeys]
            · exact Or.inl h
          · rw [if_neg hc] at he
            rcases mem_dinsert he with h | h
            · refine Or.inr ⟨room, ?_, ?_, ?_, ?_, ?_⟩
              · rw [h]
                exact dlookup_mem hrm
              · rw [h, hpl]
              · rw [h]
              · rw [h]
                simp
              · rw [h]
                simp [dkeys]
            · exact Or.inl h
        · rw [if_neg hh] at he
          rcases mem_dinsert he with h | h
          · refine Or.inr ⟨room, ?_, ?_, ?_, ?_, ?_⟩
            · rw [h]
              exact dlookup_mem hrm
            · rw [h, hpl]
            · rw [h]
            · rw [h]
              simp
            · rw [h]
              exact Or.inl ⟨hh, rfl⟩
          · exact Or.inl h

theorem roomsBounded_leave (now : Nat) (sender : String) (st : ServerState)
    (hb : roomsBounded st) : roomsBounded (handle_leave_room now st sender).1 := by
  intro e he
  rcases leave_rooms_mem now st sender e he with h | ⟨room, hmem, hpl, _, _, _⟩
  · exact hb e h
  · rw [hpl]
    exact le_trans (length_derase_le _ _) (hb _ hmem)

theorem roomsBounded_game (now : Nat) (sender raw mt : String) (d : GameMsgData)
    (st : ServerState) (hb : roomsBounded st) :
    roomsBounded (handle_game_message now st sender raw mt d).1 := by
  cases hrc : resolve_room_code st sender d with
  | none =>
    simp only [handle_game_message, hrc]
    exact hb
  | some rc =>
    by_cases h0 : rc = ""
    · simp only [handle_game_message, hrc, h0, if_pos rfl]
      exact hb
    · cases hrm : dlookup st.rooms rc with
      | none =>
        simp only [handle_game_message, hrc, if_neg h0, hrm]
        exact hb
      | some room =>
        intro e he
        simp only [handle_game_message, hrc, if_neg h0, hrm] at he
        rcases mem_dinsert he with h | h
        · rw [h]
          by_cases hmt : mt = "game_start"
          · simp only [if_pos hmt]
            exact hb _ (dlookup_mem hrm)
          · simp only [if_neg hmt]
            exact hb _ (dlookup_mem hrm)
        · exact hb e h

theorem mem_foldl_cleanup_rooms (codes : List String) (acc : ServerState)
    (e : String × Room) (h : e ∈ (codes.foldl cleanup_step acc).rooms) : e ∈ acc.rooms := by
  induction codes generalizing acc with
  | nil => exact h
  | cons c codes ih =>
    have h2 := ih (cleanup_step acc c) h
    unfold cleanup_step at h2
    cases hq : dlookup acc.rooms c with
    | none =>
      rw [hq] at h2
      exact h2
    | some room =>
      rw [hq] at h2
      exact (mem_derase h2).1

/-- C3: every room of the registry holds at most 4 players, this bound is
preserved by every operation (create, join, leave, game message, cleanup),
and a `join_room` request against a room that already has 4 players yields
exactly the "Room is full" `room_error` and leaves the state unchanged. -/
theorem room_capacity_invariant (st : ServerState) (hb : roomsBounded st) :
    (∀ r : Req, roomsBounded (step st r).1) ∧
    (∀ (now websocket : Nat) (sender_id : String) (data : RoomReqData) (room : Room),
      dlookup st.rooms (pyUpper (data.room_code.getD "")) = some room →
      pyUpper (data.room_code.getD "") ≠ "" →
      room.players.length = 4 →
      handle_join_room now st websocket sender_id data =
        (st, [(websocket,
          Payload.json (ServerMsg.room_error "Room is full (max 4 players).") now)])) := by
  constructor
  · intro r
    cases r with
    | create_room now ws sender d => exact roomsBounded_create now ws sender d st hb
    | join_room now ws sender d => exact roomsBounded_join now ws sender d st hb
    | leave_room now sender => exact roomsBounded_leave now sender st hb
    | game now sender raw mt d =>
      by_cases hmt : mt ∈ game_message_types
      · simp only [step, if_pos hmt]
        exact roomsBounded_game now sender raw mt d st hb
      · simp only [step, if_neg hmt]
        exact hb
    | cleanup now =>
      intro e he
      exact hb e (mem_foldl_cleanup_rooms _ _ _ he)
  · intro now websocket sender_id data room hlook hne hfour
    have hfull : room.is_full = true := by
      simp [Room.is_full, hfour]
    simp only [handle_join_room, if_neg hne, hlook, hfull, if_true]

/-- Witness for C3 at a concrete full room. -/
theorem room_capacity_invariant_witness :
    roomsBounded stFourW ∧
    handle_join_room 9 stFourW 8 "e" ⟨some "FULL", none, none⟩ =
      (stFourW, [(8, Payload.json (ServerMsg.room_error "Room is full (max 4 players).") 9)]) :=
  ⟨by unfold roomsBounded; decide,
    (room_capacity_invariant stFourW (by unfold roomsBounded; decide)).2 9 8 "e"
      ⟨some "FULL", none, none⟩ roomFourW (by decide) (by decide) (by decide)⟩

/-- The per-room invariant of the claim: `players` and `player_info` always
have the same key set, and the host is a key of `players` whenever the room
is non-empty. -/
def roomWF (room : Room) : Prop :=
  dkeys room.players = dkeys room.player_info ∧
  (room.players ≠ [] → room.host_id ∈ dkeys room.players)

/-- Registry invariant: every registered room satisfies `roomWF`, and rooms
in the registry are never empty (the handlers delete a room the moment its
last player leaves). -/
def registryWF (st : ServerState) : Prop :=
  ∀ e ∈ st.rooms, roomWF e.2 ∧ e.2.players ≠ []

theorem mem_dkeys_dinsert {α : Type _} {m : List (String × α)} {x k : String} (v : α)
    (h : x ∈ dkeys m) : x ∈ dkeys (dinsert m k v) := by
  rw [dkeys_dinsert]
  by_cases hc : k ∈ dkeys m
  · rwa [if_pos hc]
  · rw [if_neg hc]
    exact List.mem_append_left _ h

theorem registryWF_create (now ws : Nat) (sender : String) (d : RoomReqData)
    (st : ServerState) (hwf : registryWF st) :
    registryWF (handle_create_room now st ws sender d).1 := by
  by_cases h1 : pyUpper (d.room_code.getD "") = "" ∨ (pyUpper (d.room_code.getD "")).length ≠ 4
  · simp only [handle_create_room]
    rw [if_pos h1]
    exact hwf
  · by_cases h2 : dcontains st.rooms (pyUpper (d.room_code.getD "")) = true
    · simp only [handle_create_room]
      rw [if_neg h1, if_pos h2]
      exact hwf
    · simp only [handle_create_room]
      rw [if_neg h1, if_neg h2]
      intro e he
      rcases mem_dinsert he with h | h
      · rw [h]
        refine ⟨⟨?_, ?_⟩, ?_⟩ <;> simp [Room.add_player, dinsert, dkeys]
      · exact hwf e h

theorem registryWF_join (now ws : Nat) (sender : String) (d : RoomReqData)
    (st : ServerState) (hwf : registryWF st) :
    registryWF (handle_join_room now st ws sender d).1 := by
  by_cases h0 : pyUpper (d.room_code.getD "") = ""
  · simp only [handle_join_room, h0, if_pos rfl]
    exact hwf
  · cases hq : dlookup st.rooms (pyUpper (d.room_code.getD "")) with
    | none =>
      simp only [handle_join_room, if_neg h0, hq]
      exact hwf
    | some room =>
      by_cases hf : room.is_full = true
      · simp only [handle_join_room, if_neg h0, hq, hf, if_true]
        exact hwf
      · by_cases hg : room.game_started = true
        · simp only [handle_join_room, if_neg h0, hq, hf, hg]
          exact hwf
        · simp only [handle_join_room, if_neg h0, hq, hf, hg]
          intro e he
          simp only [Bool.false_eq_true, if_false, Room.add_player] at he
          obtain ⟨⟨hkeys, hhost⟩, hne⟩ := hwf _ (dlookup_mem hq)
          rcases mem_dinsert he with h | h
          · rw [h]
            refine ⟨⟨?_, ?_⟩, ?_⟩
            · show dkeys (dinsert room.players sender ws) = dkeys (dinsert room.player_info sender _)
              rw [dkeys_dinsert, dkeys_dinsert, hkeys]
            · intro _
              exact mem_dkeys_dinsert ws (hhost hne)
            · exact dinsert_ne_nil _ _ _
          · exact hwf e h

theorem registryWF_leave (now : Nat) (sender : String) (st : ServerState)
    (hwf : registryWF st) : registryWF (handle_leave_room now st sender).1 := by
  intro e he
  rcases leave_rooms_mem now st sender e he with h | ⟨room, hmem, hpl, hpi, hne, hhost⟩
  · exact hwf e h
  · obtain ⟨⟨hkeys, hhostpre⟩, hnepre⟩ := hwf _ hmem
    refine ⟨⟨?_, ?_⟩, hne⟩
    · rw [hpi, hpl, dkeys_derase, dkeys_derase, hkeys]
    · intro _
      rcases hhost with ⟨hsne, hh⟩ | hh
      · rw [hh, hpl, dkeys_derase]
        refine List.mem_filter.mpr ⟨hhostpre hnepre, ?_⟩
        simp
        exact fun hc => hsne hc.symm
      · exact hh

theorem registryWF_game (now : Nat) (sender raw mt : String) (d : GameMsgData)
    (st : ServerState) (hwf : registryWF st) :
    registryWF (handle_game_message now st sender raw mt d).1 := by
  cases hrc : resolve_room_code st sender d with
  | none =>
    simp only [handle_game_message, hrc]
    exact hwf
  | some rc =>
    by_cases h0 : rc = ""
    · simp only [handle_game_message, hrc, h0, if_pos rfl]
      exact hwf
    · cases hrm : dlookup st.rooms rc with
      | none =>
        simp only [handle_game_message, hrc, if_neg h0, hrm]
        exact hwf
      | some room =>
        intro e he
        simp only [handle_game_message, hrc, if_neg h0, hrm] at he
        rcases mem_dinsert he with h | h
        · rw [h]
          obtain ⟨⟨hkeys, hhost⟩, hne⟩ := hwf _ (dlookup_mem hrm)
          by_cases hmt : mt = "game_start"
          · simp only [if_pos hmt]
            exact ⟨⟨hkeys, hhost⟩, hne⟩
          · simp only [if_neg hmt]
            exact ⟨⟨hkeys, hhost⟩, hne⟩
        · exact hwf e h

/-- C5: the key sets of `players` and `player_info` coincide for every room
of the registry, the host of every (necessarily non-empty) registered room is
a key of its `players` map, and this invariant is preserved by every
operation (create, join, leave, game message, cleanup). -/
theorem registry_key_sets_invariant (st : ServerState) (hwf : registryWF st) (r : Req) :
    registryWF (step st r).1 := by
  cases r with
  | create_room now ws sender d => exact registryWF_create now ws sender d st hwf
  | join_room now ws sender d => exact registryWF_join now ws sender d st hwf
  | leave_room now sender => exact registryWF_leave now sender st hwf
  | game now sender raw mt d =>
    by_cases hmt : mt ∈ game_message_types
    · simp only [step, if_pos hmt]
      exact registryWF_game now sender raw mt d st hwf
    · simp only [step, if_neg hmt]
      exact hwf
  | cleanup now =>
    intro e he
    exact hwf e (mem_foldl_cleanup_rooms _ _ _ he)

/-- Witness for C5: the invariant holds on a concrete registry and is kept
by a concrete host-leave step. -/
theorem registry_key_sets_invariant_witness :
    registryWF stFourW ∧ registryWF (step stFourW (Req.leave_room 3 "a")).1 :=
  ⟨by unfold registryWF roomWF; decide,
   registry_key_sets_invariant stFourW (by unfold registryWF roomWF; decide)
     (Req.leave_room 3 "a")⟩

theorem filter_is_host_dmodify (m : List (String × PlayerInfo)) (nh : String)
    (hnd : (dkeys m).Nodup) (hall : ∀ e ∈ m, e.2.is_host = false) (hmem : nh ∈ dkeys m) :
    ((dmodify m nh (fun i => { i with is_host := true })).filter
        (fun e => e.2.is_host)).map Prod.fst = [nh] := by
  induction m with
  | nil => simp [dkeys] at hmem
  | cons e m ih =>
    obtain ⟨k1, v1⟩ := e
    simp only [dkeys, List.map_cons, List.nodup_cons] at hnd
    by_cases hk : nh = k1
    · subst hk
      rw [dmodify]
      rw [if_pos rfl, dmodify_of_not_mem _ (by simpa [dkeys] using hnd.1)]
      rw [List.filter_cons]
      simp only [decide_eq_true_eq]
      rw [if_pos (by simp)]
      have hrest : m.filter (fun e => e.2.is_host) = [] := by
        apply List.filter_eq_nil_iff.mpr
        intro a ha
        simp [hall a (List.mem_cons_of_mem _ ha)]
      rw [hrest]
      simp
    · rw [dmodify]
      rw [if_neg hk, List.filter_cons]
      have hv1 : v1.is_host = false := hall (k1, v1) (List.mem_cons_self _ _)
      rw [if_neg (by simp [hv1])]
      refine ih (by simpa [dkeys] using hnd.2) ?_ ?_
      · intro a ha
        exact hall a (List.mem_cons_of_mem _ ha)
      · simp only [dkeys, List.map_cons, List.mem_cons] at hmem
        rcases hmem with h | h
        · exact absurd h hk
        · simpa [dkeys] using h

/-- C4: if the host of a room leaves and the room stays non-empty, the
registry afterwards holds the room with a new host, exactly one remaining
`player_info` entry carries `is_host = true` (the new host's), and the
`host_changed` message is sent to every remaining player's socket. -/
theorem host_leave_promotes_unique_host
    (now : Nat) (st : ServerState) (sender code : String) (room : Room)
    (hpr : dlookup st.player_rooms sender = some code)
    (hrm : dlookup st.rooms code = some room)
    (hhost : room.host_id = sender)
    (hkeys : dkeys room.players = dkeys room.player_info)
    (hnd : (dkeys room.players).Nodup)
    (hone : ∀ e ∈ room.player_info, e.1 ≠ sender → e.2.is_host = false)
    (hnonempty : derase room.players sender ≠ []) :
    ∃ room2 new_host,
      dlookup (handle_leave_room now st sender).1.rooms code = some room2 ∧
      room2.host_id = new_host ∧
      (room2.player_info.filter (fun e => e.2.is_host)).map Prod.fst = [new_host] ∧
      ∀ e ∈ room2.players,
        (e.2, Payload.json (ServerMsg.host_changed new_host) now) ∈
          (handle_leave_room now st sender).2 := by
  cases hpl : derase room.players sender with
  | nil => exact absurd hpl hnonempty
  | cons f rest =>
    obtain ⟨fid, fsock⟩ := f
    have hfidmem : fid ∈ dkeys (derase room.players sender) := by
      rw [hpl]
      simp [dkeys]
    have hfid2 : fid ∈ dkeys room.players ∧ fid ≠ sender := by
      rw [dkeys_derase] at hfidmem
      have h2 := List.mem_filter.mp hfidmem
      exact ⟨h2.1, by simpa using h2.2⟩
    have hpikeys : dkeys (derase room.player_info sender) =
        (dkeys room.players).filter (fun x => decide (x ≠ sender)) := by
      rw [dkeys_derase, hkeys]
    have hcont : dcontains (derase room.player_info sender) fid = true := by
      apply dcontains_iff.mpr
      rw [hpikeys]
      exact List.mem_filter.mpr ⟨hfid2.1, by simp [hfid2.2]⟩
    simp only [handle_leave_room, hpr, hrm, Room.remove_player, hpl]
    rw [if_pos hhost.symm, if_pos hcont]
    refine ⟨{ code := room.code, host_id := fid, players := (fid, fsock) :: rest,
              player_info := dmodify (derase room.player_info sender) fid
                (fun i => { i with is_host := true }),
              game_started := room.game_started, created_at := room.created_at,
              last_activity := now }, fid, ?_, rfl, ?_, ?_⟩
    · rw [dlookup_dinsert, if_pos rfl]
    · refine filter_is_host_dmodify _ fid ?_ ?_ ?_
      · rw [hpikeys]
        exact List.Nodup.filter _ hnd
      · intro a ha
        have h2 := mem_derase ha
        exact hone a h2.1 h2.2
      · exact dcontains_iff.mp hcont
    · intro e he
      apply List.mem_append_right
      apply List.mem_map.mpr
      refine ⟨e, List.mem_filter.mpr ⟨?_, by simp⟩, rfl⟩
      simpa using he

/-- Witness for C4: host `"a"` leaves the four-player room. -/
theorem host_leave_promotes_unique_host_witness :
    (dlookup stFourW.player_rooms "a" = some "FULL" ∧
      dlookup stFourW.rooms "FULL" = some roomFourW ∧
      roomFourW.host_id = "a" ∧ derase roomFourW.players "a" ≠ []) ∧
    ∃ room2 new_host,
      dlookup (handle_leave_room 3 stFourW "a").1.rooms "FULL" = some room2 ∧
      room2.host_id = new_host ∧
      (room2.player_info.filter (fun e => e.2.is_host)).map Prod.fst = [new_host] ∧
      ∀ e ∈ room2.players,
        (e.2, Payload.json (ServerMsg.host_changed new_host) 3) ∈
          (handle_leave_room 3 stFourW "a").2 :=
  ⟨⟨by decide, by decide, by decide, by decide⟩,
    host_leave_promotes_unique_host 3 stFourW "a" "FULL" roomFourW (by decide) (by decide)
      (by decide) (by decide) (by decide) (by decide) (by decide)⟩

/-- C8: a game-traffic frame whose room resolves forwards the original frame
string verbatim to the socket of every room member other than the sender and
to nobody else; the room's `last_activity` is refreshed and `game_started`
is set exactly when the kind is `game_start`. -/
theorem game_message_forwarded_verbatim
    (now : Nat) (st : ServerState) (sender raw mt rc : String) (d : GameMsgData)
    (room : Room)
    (hmt : mt ∈ game_message_types)
    (hrc : resolve_room_code st sender d = some rc)
    (hne : rc ≠ "")
    (hroom : dlookup st.rooms rc = some room) :
    (step st (Req.game now sender raw mt d)).2 =
      (room.players.filter (fun e => decide (e.1 ≠ sender))).map
        (fun e => (e.2, Payload.raw raw)) ∧
    dlookup (step st (Req.game now sender raw mt d)).1.rooms rc =
      some { room with last_activity := now,
                       game_started :=
                         if mt = "game_start" then true else room.game_started } := by
  simp only [step, if_pos hmt, handle_game_message, hrc, if_neg hne, hroom]
  constructor
  · by_cases hg : mt = "game_start"
    · simp only [if_pos hg]
    · simp only [if_neg hg]
  · rw [dlookup_dinsert, if_pos rfl]
    by_cases hg : mt = "game_start"
    · simp [hg]
    · simp [hg]

/-- Witness for C8: a `chat` frame through the four-player room. -/
theorem game_message_forwarded_verbatim_witness :
    ("chat" ∈ game_message_types ∧
      resolve_room_code stFourW "a" ⟨some "FULL"⟩ = some "FULL" ∧
      dlookup stFourW.rooms "FULL" = some roomFourW) ∧
    (step stFourW (Req.game 7 "a" "FRAME" "chat" ⟨some "FULL"⟩)).2 =
      (roomFourW.players.filter (fun e => decide (e.1 ≠ "a"))).map
        (fun e => (e.2, Payload.raw "FRAME")) ∧
    dlookup (step stFourW (Req.game 7 "a" "FRAME" "chat" ⟨some "FULL"⟩)).1.rooms "FULL" =
      some { roomFourW with last_activity := 7,
                            game_started :=
                              if "chat" = "game_start" then true
                              else roomFourW.game_started } :=
  ⟨⟨by decide, by decide, by decide⟩,
    game_message_forwarded_verbatim 7 stFourW "a" "FRAME" "chat" "FULL" ⟨some "FULL"⟩
      roomFourW (by decide) (by decide) (by decide) (by decide)⟩

theorem derase_of_lookup_none {α : Type _} {m : List (String × α)} {k : String}
    (h : dlookup m k = none) : derase m k = m := by
  induction m with
  | nil => rfl
  | cons e m ih =>
    obtain ⟨k1, v1⟩ := e
    rw [dlookup_cons] at h
    by_cases hk : k = k1
    · rw [if_pos hk] at h
      exact absurd h (by simp)
    · rw [if_neg hk] at h
      simp only [derase]
      rw [if_neg hk, ih h]

theorem dlookup_foldl_derase_of_none {α : Type _} (codes : List String)
    (m : List (String × α)) (p : String) (h : dlookup m p = none) :
    dlookup (codes.foldl (fun r c => derase r c) m) p = none := by
  induction codes generalizing m with
  | nil => exact h
  | cons c codes ih =>
    rw [List.foldl_cons]
    apply ih
    rw [dlookup_derase]
    by_cases hpc : p = c
    · rw [if_pos hpc]
    · rw [if_neg hpc]
      exact h

theorem dlookup_foldl_derase_mem {α : Type _} (codes : List String)
    (m : List (String × α)) (c : String) (hc : c ∈ codes) :
    dlookup (codes.foldl (fun r c => derase r c) m) c = none := by
  induction codes generalizing m with
  | nil => simp at hc
  | cons c0 codes ih =>
    rw [List.foldl_cons]
    by_cases h0 : c ∈ codes
    · exact ih _ h0
    · have hcc : c = c0 := by
        rcases List.mem_cons.mp hc with h | h
        · exact h
        · exact absurd h h0
      apply dlookup_foldl_derase_of_none
      rw [dlookup_derase, if_pos hcc]

theorem dlookup_foldl_derase_not_mem {α : Type _} (codes : List String)
    (m : List (String × α)) (c : String) (hc : c ∉ codes) :
    dlookup (codes.foldl (fun r c => derase r c) m) c = dlookup m c := by
  induction codes generalizing m with
  | nil => rfl
  | cons c0 codes ih =>
    rw [List.foldl_cons]
    rw [ih _ (fun h => hc (List.mem_cons_of_mem _ h))]
    rw [dlookup_derase, if_neg (fun h => hc (by rw [h]; exact List.mem_cons_self _ _))]

theorem cleanup_fold_rooms (codes : List String) (acc : ServerState) :
    (codes.foldl cleanup_step acc).rooms = codes.foldl (fun r c => derase r c) acc.rooms := by
  induction codes generalizing acc with
  | nil => rfl
  | cons c codes ih =>
    rw [List.foldl_cons, List.foldl_cons, ih]
    congr 1
    unfold cleanup_step
    cases hq : dlookup acc.rooms c with
    | none => exact (derase_of_lookup_none hq).symm
    | some room => rfl

theorem players_fold_none (pl : List (String × Nat)) (pr : List (String × String))
    (p : String) (h : dlookup pr p = none) :
    dlookup (pl.foldl (fun m x => derase m x.1) pr) p = none := by
  induction pl generalizing pr with
  | nil => exact h
  | cons x pl ih =>
    rw [List.foldl_cons]
    apply ih
    rw [dlookup_derase]
    by_cases hp : p = x.1
    · rw [if_pos hp]
    · rw [if_neg hp]
      exact h

theorem players_fold_mem (pl : List (String × Nat)) (pr : List (String × String))
    (p : String) (hp : p ∈ dkeys pl) :
    dlookup (pl.foldl (fun m x => derase m x.1) pr) p = none := by
  induction pl generalizing pr with
  | nil => simp [dkeys] at hp
  | cons x pl ih =>
    rw [List.foldl_cons]
    by_cases h0 : p ∈ dkeys pl
    · exact ih _ h0
    · have hpx : p = x.1 := by
        simp only [dkeys, List.map_cons, List.mem_cons] at hp
        rcases hp with h | h
        · exact h
        · exact absurd (by simpa [dkeys] using h) h0
      apply players_fold_none
      rw [dlookup_derase, if_pos hpx]

theorem cleanup_fold_pr_none (codes : List String) (acc : ServerState) (p : String)
    (h : dlookup acc.player_rooms p = none) :
    dlookup (codes.foldl cleanup_step acc).player_rooms p = none := by
  induction codes generalizing acc with
  | nil => exact h
  | cons c codes ih =>
    rw [List.foldl_cons]
    apply ih
    unfold cleanup_step
    cases hq : dlookup acc.rooms c with
    | none => exact h
    | some room => exact players_fold_none _ _ _ h

/-- C9: after one maintenance pass at time `now`, every room whose
`last_activity` is more than 3600 seconds old is gone from the registry and
each of its players is gone from `player_rooms`, while every room at or
under the threshold is still registered unchanged. -/
theorem cleanup_removes_exactly_stale (now : Nat) (st : ServerState)
    (hnd : (dkeys st.rooms).Nodup) :
    (∀ e ∈ st.rooms, 3600 < now - e.2.last_activity →
        dlookup (cleanup_stale_rooms_pass now st).rooms e.1 = none ∧
        ∀ p ∈ dkeys e.2.players,
          dlookup (cleanup_stale_rooms_pass now st).player_rooms p = none) ∧
    (∀ e ∈ st.rooms, ¬3600 < now - e.2.last_activity →
        dlookup (cleanup_stale_rooms_pass now st).rooms e.1 = some e.2) := by
  have hunfold : cleanup_stale_rooms_pass now st =
      ((st.rooms.filter (fun e => decide (3600 < now - e.2.last_activity))).map
        Prod.fst).foldl cleanup_step st := rfl
  have hstale_nodup : ((st.rooms.filter
      (fun e => decide (3600 < now - e.2.last_activity))).map Prod.fst).Nodup := by
    have hsub := (List.filter_sublist
      (p := fun e => decide (3600 < now - e.2.last_activity)) st.rooms).map Prod.fst
    exact hnd.sublist hsub
  rw [hunfold]
  constructor
  · intro e he hstale
    have hmem : e.1 ∈ (st.rooms.filter
        (fun x => decide (3600 < now - x.2.last_activity))).map Prod.fst :=
      List.mem_map_of_mem Prod.fst (List.mem_filter.mpr ⟨he, by simpa using hstale⟩)
    constructor
    · rw [cleanup_fold_rooms]
      exact dlookup_foldl_derase_mem _ _ _ hmem
    · intro p hp
      obtain ⟨s, t, hst⟩ := List.append_of_mem hmem
      rw [hst, List.foldl_append, List.foldl_cons]
      apply cleanup_fold_pr_none
      have hcs : e.1 ∉ s := by
        intro hins
        have hn2 : (s ++ e.1 :: t).Nodup := hst ▸ hstale_nodup
        exact (List.nodup_append.mp hn2).2.2 hins (List.mem_cons_self _ _)
      have hlook : dlookup (s.foldl cleanup_step st).rooms e.1 = some e.2 := by
        rw [cleanup_fold_rooms, dlookup_foldl_derase_not_mem _ _ _ hcs]
        exact dlookup_eq_some_of_mem_nodup hnd he
      simp only [cleanup_step, hlook]
      exact players_fold_mem _ _ _ hp
  · intro e he hfresh
    have hnotin : e.1 ∉ (st.rooms.filter
        (fun x => decide (3600 < now - x.2.last_activity))).map Prod.fst := by
      intro hin
      obtain ⟨x, hxmem, hxfst⟩ := List.mem_map.mp hin
      have hx2 := List.mem_filter.mp hxmem
      have hlx : dlookup st.rooms x.1 = some x.2 :=
        dlookup_eq_some_of_mem_nodup hnd (by
          have := hx2.1
          rwa [show x = (x.1, x.2) from rfl] at this)
      have hle : dlookup st.rooms e.1 = some e.2 :=
        dlookup_eq_some_of_mem_nodup hnd he
      rw [hxfst, hle] at hlx
      have hxe : x.2 = e.2 := by
        injection hlx.symm
      apply hfresh
      have hxs := hx2.2
      rw [hxe] at hxs
      simpa using hxs
    rw [cleanup_fold_rooms, dlookup_foldl_derase_not_mem _ _ _ hnotin]
    exact dlookup_eq_some_of_mem_nodup hnd he

/-- A stale room: two players, `last_activity = 0`. -/
def roomStaleW : Room :=
  { code := "OLDR", host_id := "s1",
    players := [("s1", 5), ("s2", 6)],
    player_info :=
      [("s1", ⟨"s1", "S1", "red", true, true⟩), ("s2", ⟨"s2", "S2", "blue", false, true⟩)],
    game_started := true, created_at := 0, last_activity := 0 }

/-- A fresh room: one player, `last_activity = 2000`. -/
def roomFreshW : Room :=
  { code := "NEWR", host_id := "h1",
    players := [("h1", 1)],
    player_info := [("h1", ⟨"h1", "Host", "red", true, true⟩)],
    game_started := false, created_at := 2000, last_activity := 2000 }

/-- A registry holding one stale and one fresh room. -/
def stStaleW : ServerState :=
  { rooms := [("OLDR", roomStaleW), ("NEWR", roomFreshW)],
    player_rooms := [("s1", "OLDR"), ("s2", "OLDR"), ("h1", "NEWR")],
    total_rooms_created := 2, total_games_played := 1 }

/-- Witness for C9 at time 5000: the stale room and its players vanish, the
fresh room survives. -/
theorem cleanup_removes_exactly_stale_witness :
    (dkeys stStaleW.rooms).Nodup ∧
    dlookup (cleanup_stale_rooms_pass 5000 stStaleW).rooms "OLDR" = none ∧
    dlookup (cleanup_stale_rooms_pass 5000 stStaleW).player_rooms "s1" = none ∧
    dlookup (cleanup_stale_rooms_pass 5000 stStaleW).rooms "NEWR" = some roomFreshW := by
  have h := cleanup_removes_exactly_stale 5000 stStaleW (by decide)
  exact ⟨by decide,
    (h.1 ("OLDR", roomStaleW) (by decide) (by decide)).1,
    (h.1 ("OLDR", roomStaleW) (by decide) (by decide)).2 "s1" (by decide),
    h.2 ("NEWR", roomFreshW) (by decide) (by decide)⟩

theorem pyUpper_of_alphabet (s : String)
    (h : ∀ c ∈ s.data, c ∈ room_code_alphabet.data) : pyUpper s = s := by
  have hchar : ∀ c ∈ room_code_alphabet.data, c.toUpper = c := by decide
  unfold pyUpper
  have hmap : s.data.map Char.toUpper = s.data.map id :=
    List.map_congr_left fun c hc => hchar c (h c hc)
  rw [hmap, List.map_id]

/-- C1: on an empty registry, `create_room` with a valid 4-character code
from the unambiguous alphabet replies `room_created`, and an immediately
following `join_room` by a different player (with the code in any case)
replies `room_joined` whose players list is exactly the host's info, plus a
single `player_joined` notification to the host's socket. -/
theorem create_then_join_lists_exactly_host
    (now1 now2 wsH wsJ : Nat) (host_id joiner_id code r nameH colH nameJ colJ : String)
    (hlen : code.length = 4)
    (halpha : ∀ c ∈ code.data, c ∈ room_code_alphabet.data)
    (hr : pyUpper r = code)
    (hne : joiner_id ≠ host_id) :
    (handle_create_room now1 initialServerState wsH host_id
        ⟨some code, some nameH, some colH⟩).2
      = [(wsH, Payload.json (ServerMsg.room_created code) now1)] ∧
    ∃ assigned,
      (handle_join_room now2
          (handle_create_room now1 initialServerState wsH host_id
            ⟨some code, some nameH, some colH⟩).1
          wsJ joiner_id ⟨some r, some nameJ, some colJ⟩).2
        = [(wsJ, Payload.json
              (ServerMsg.room_joined code [⟨host_id, nameH, colH, true, true⟩] assigned) now2),
           (wsH, Payload.json
              (ServerMsg.player_joined ⟨joiner_id, nameJ, assigned, false, true⟩) now2)] := by
  have hup : pyUpper code = code := pyUpper_of_alphabet code halpha
  have hne0 : code ≠ "" := by
    intro h
    rw [h] at hlen
    exact absurd hlen (by decide)
  have hcond : ¬(code = "" ∨ code.length ≠ 4) := by simp [hne0, hlen]
  have hcreate : handle_create_room now1 initialServerState wsH host_id
      ⟨some code, some nameH, some colH⟩ =
      ({ rooms := [(code,
          { code := code, host_id := host_id, players := [(host_id, wsH)],
            player_info := [(host_id, ⟨host_id, nameH, colH, true, true⟩)],
            game_started := false, created_at := now1, last_activity := now1 })],
         player_rooms := [(host_id, code)],
         total_rooms_created := 1, total_games_played := 0 },
       [(wsH, Payload.json (ServerMsg.room_created code) now1)]) := by
    simp only [handle_create_room, Option.getD_some]
    rw [hup, if_neg hcond]
    rw [if_neg (by simp [initialServerState, dcontains, dlookup])]
    simp [Room.add_player, dinsert, initialServerState]
  constructor
  · rw [hcreate]
  · refine ⟨if ([colH].contains colJ) = true then
        (match ["red", "blue", "green", "purple"].find?
            (fun c => !([colH].contains c)) with
         | some c => c
         | none => colJ)
      else colJ, ?_⟩
    rw [hcreate]
    simp only [handle_join_room, Option.getD_some, hr]
    rw [if_neg hne0]
    simp only [dlookup_cons, if_true]
    simp [Room.is_full, Room.add_player, broadcast_to_room, dinsert, dkeys,
      hne, Ne.symm hne]

/-- Witness for C1: host `"HOST"` creates `"ABCD"`, `"JOIN"` joins as
`"abcd"` with a colliding color. -/
theorem create_then_join_lists_exactly_host_witness :
    (("ABCD" : String).length = 4 ∧
      (∀ c ∈ ("ABCD" : String).data, c ∈ room_code_alphabet.data) ∧
      pyUpper "abcd" = "ABCD" ∧ ("JOIN" : String) ≠ "HOST") ∧
    (handle_create_room 1 initialServerState 10 "HOST"
        ⟨some "ABCD", some "Alice", some "red"⟩).2
      = [(10, Payload.json (ServerMsg.room_created "ABCD") 1)] ∧
    ∃ assigned,
      (handle_join_room 2
          (handle_create_room 1 initialServerState 10 "HOST"
            ⟨some "ABCD", some "Alice", some "red"⟩).1
          11 "JOIN" ⟨some "abcd", some "Bob", some "red"⟩).2
        = [(11, Payload.json
              (ServerMsg.room_joined "ABCD" [⟨"HOST", "Alice", "red", true, true⟩] assigned) 2),
           (10, Payload.json
              (ServerMsg.player_joined ⟨"JOIN", "Bob", assigned, false, true⟩) 2)] :=
  ⟨⟨by decide, by decide, by decide, by decide⟩,
    create_then_join_lists_exactly_host 1 2 10 11 "HOST" "JOIN" "ABCD" "abcd"
      "Alice" "red" "Bob" "red" (by decide) (by decide) (by decide) (by decide)⟩

/-! ## Client-side claims -/

/-- A client that already holds a player id, sitting in the `disconnected`
state. -/
def stDiscW : ClientState :=
  { state := ConnectionState.disconnected, player_id := some "AAAAAAAAAAAAAAAA",
    player_name := "Player", player_color := "red", is_host := false,
    room_code := none, players := [], websocket := none }

/-- Counterexample for C6: `connect()` called in the `disconnected` state
with `player_id` already set overwrites it with the freshly generated id, so
the id is not reused across reconnects. -/
theorem connect_regenerates_player_id_cex :
    stDiscW.player_id = some "AAAAAAAAAAAAAAAA" ∧
    (NetworkManager.connect true stDiscW "BBBBBBBBBBBBBBBB" 5 [true]).1.player_id
      = some "BBBBBBBBBBBBBBBB" ∧
    ("BBBBBBBBBBBBBBBB" : String) ≠ "AAAAAAAAAAAAAAAA" := by
  refine ⟨rfl, ?_, by decide⟩
  rfl

theorem connectAttempts_player_id (st : ClientState) (sock : Nat) (n : Nat)
    (outcomes : List Bool) :
    (NetworkManager.connectAttempts st sock n outcomes).1.player_id = st.player_id := by
  induction n generalizing outcomes with
  | zero => rfl
  | succ n ih =>
    cases outcomes with
    | nil => rfl
    | cons o rest =>
      by_cases ho : o = true
      · simp [NetworkManager.connectAttempts, ho]
      · simp [NetworkManager.connectAttempts, ho, ih]

/-- C6 amended: `connect` overwrites `player_id` with the freshly generated
id on every call that starts in the `disconnected` state (whether or not an
id is already set); a call starting in any other state leaves `player_id`
unchanged. -/
theorem connect_player_id_behavior (wsAvail : Bool) (st : ClientState)
    (fresh_id : String) (sock : Nat) (outcomes : List Bool) (hav : wsAvail = true) :
    (st.state = ConnectionState.disconnected →
      (NetworkManager.connect wsAvail st fresh_id sock outcomes).1.player_id
        = some fresh_id) ∧
    (st.state ≠ ConnectionState.disconnected →
      (NetworkManager.connect wsAvail st fresh_id sock outcomes).1.player_id
        = st.player_id) := by
  subst hav
  constructor
  · intro hd
    have hnn : ¬st.state ≠ ConnectionState.disconnected := by simp [hd]
    simp only [NetworkManager.connect]
    rw [if_neg (by simp), if_neg hnn, connectAttempts_player_id]
  · intro hnd
    simp only [NetworkManager.connect]
    rw [if_neg (by simp), if_pos hnd]

/-- Witness for C6 (amended): from `disconnected`, the second attempt
succeeds and the stored id is the fresh one. -/
theorem connect_player_id_behavior_witness :
    (true = true ∧ stDiscW.state = ConnectionState.disconnected) ∧
    (NetworkManager.connect true stDiscW "CCCCCCCCCCCCCCCC" 5 [false, true]).1.player_id
      = some "CCCCCCCCCCCCCCCC" :=
  ⟨⟨rfl, by decide⟩,
    (connect_player_id_behavior true stDiscW "CCCCCCCCCCCCCCCC" 5 [false, true] rfl).1
      (by decide)⟩

/-- Counterexample for C7: a `host_changed` frame with all four envelope
fields present fails to decode, because the client's `MessageType` has no
`host_changed`, `get_stats`, or `stats` member. -/
theorem from_json_host_changed_cex :
    NetworkMessage.from_json 0 (Json.obj
      [("type", Json.str "host_changed"),
       ("data", Json.obj [("new_host_id", Json.str "p2")]),
       ("sender_id", Json.str "server"), ("timestamp", Json.num 12)])
      = Except.error DecodeErr.valueErr ∧
    messageTypeOfString "host_changed" = none ∧
    messageTypeOfString "get_stats" = none ∧
    messageTypeOfString "stats" = none :=
  ⟨rfl, rfl, rfl, rfl⟩

/-- C7 amended: the decoder recognizes exactly the seventeen kinds of the
client's `MessageType` (not `host_changed`, `get_stats`, or `stats`), and an
already-parsed frame decodes successfully precisely when it is a JSON object
whose `type` field is a recognized kind string; `data`, `sender_id` and
`timestamp` are optional and defaulted. -/
theorem from_json_ok_iff (now : Int) :
    (∀ s, (messageTypeOfString s).isSome = true ↔ s ∈ recognized_kinds) ∧
    (∀ j, (∃ m, NetworkMessage.from_json now j = Except.ok m) ↔
      ∃ fields s t, j = Json.obj fields ∧
        dlookup fields "type" = some (Json.str s) ∧
        messageTypeOfString s = some t) := by
  constructor
  · intro s
    have h1 : (messageTypeOfString s).isSome = dcontains message_type_values s := rfl
    rw [h1, dcontains_iff]
    rw [show dkeys message_type_values = recognized_kinds from rfl]
  · intro j
    constructor
    · intro hok
      obtain ⟨m, hm⟩ := hok
      cases j with
      | obj fields =>
        cases hl : dlookup fields "type" with
        | none => simp [NetworkMessage.from_json, hl] at hm
        | some v =>
          cases v with
          | str s =>
            cases hms : messageTypeOfString s with
            | none => simp [NetworkMessage.from_json, hl, hms] at hm
            | some t => exact ⟨fields, s, t, rfl, hl, hms⟩
          | null => simp [NetworkMessage.from_json, hl] at hm
          | bool b => simp [NetworkMessage.from_json, hl] at hm
          | num n => simp [NetworkMessage.from_json, hl] at hm
          | arr l => simp [NetworkMessage.from_json, hl] at hm
          | obj l => simp [NetworkMessage.from_json, hl] at hm
      | null => simp [NetworkMessage.from_json] at hm
      | bool b => simp [NetworkMessage.from_json] at hm
      | num n => simp [NetworkMessage.from_json] at hm
      | str s => simp [NetworkMessage.from_json] at hm
      | arr l => simp [NetworkMessage.from_json] at hm
    · intro hsh
      obtain ⟨fields, s, t, rfl, hl, hms⟩ := hsh
      refine ⟨{ type := t,
                data := (dlookup fields "data").getD (Json.obj []),
                sender_id := (dlookup fields "sender_id").getD Json.null,
                timestamp := (dlookup fields "timestamp").getD (Json.num now) }, ?_⟩
      simp [NetworkMessage.from_json, hl, hms]

/-- A client session in a room whose `room_code` is the empty string (as
`join_room("")` leaves behind after the server rejects the join). -/
def stEmptyCodeW : ClientState :=
  { state := ConnectionState.in_room, player_id := some "PPPPPPPPPPPPPPPP",
    player_name := "P", player_color := "red", is_host := false,
    room_code := some "", players := [("x", ⟨"x", "X", "red", false, true, true⟩)],
    websocket := some 3 }

/-- Counterexample for C10: with `room_code = some ""` (non-`None`!) and a
live websocket, `leave_room()` sends nothing, because the code checks
truthiness (`if self.room_code:`), not `is not None`. -/
theorem leave_room_send_iff_cex :
    stEmptyCodeW.room_code ≠ none ∧ stEmptyCodeW.websocket ≠ none ∧
    (NetworkManager.leave_room 0 stEmptyCodeW).2 = [] := by
  refine ⟨by decide, by decide, ?_⟩
  rfl

/-- C10 amended: from every starting connection state, `leave_room()` leaves
the session `connected` with no room code and an empty players map, and an
envelope is transmitted precisely when `room_code` is a non-empty string and
a websocket is attached. -/
theorem leave_room_resets_session (now : Int) (st : ClientState) :
    (NetworkManager.leave_room now st).1.state = ConnectionState.connected ∧
    (NetworkManager.leave_room now st).1.room_code = none ∧
    (NetworkManager.leave_room now st).1.players = [] ∧
    ((NetworkManager.leave_room now st).2 ≠ [] ↔
      (∃ c, st.room_code = some c ∧ c ≠ "") ∧ st.websocket.isSome = true) := by
  refine ⟨rfl, rfl, rfl, ?_⟩
  cases hrc : st.room_code with
  | none => simp [NetworkManager.leave_room, hrc]
  | some c =>
    by_cases hc : c = ""
    · subst hc
      simp [NetworkManager.leave_room, hrc]
    · cases hws : st.websocket with
      | none => simp [NetworkManager.leave_room, hrc, hc, hws]
      | some w => simp [NetworkManager.leave_room, hrc, hc, hws]

/-- C2: when a room with (uppercase) code `C` already exists, a `create_room`
request for `C` always yields a `room_error` reply to the requesting socket
and leaves the whole registry state unchanged. -/
theorem create_room_existing_code_errors (now websocket : Nat)
    (sender_id C : String) (pn ck : Option String) (st : ServerState)
    (hupper : pyUpper C = C) (hmem : dcontains st.rooms C = true) :
    ∃ msg, handle_create_room now st websocket sender_id ⟨some C, pn, ck⟩ =
      (st, [(websocket, Payload.json (ServerMsg.room_error msg) now)]) := by
  by_cases h1 : C = "" ∨ C.length ≠ 4
  · exact ⟨"Invalid room code", by simp [handle_create_room, hupper, h1]⟩
  · exact ⟨"Room already exists. Try a different code.",
      by simp [handle_create_room, hupper, h1, hmem]⟩

/-- Witness for C2 at a concrete registry. -/
theorem create_room_existing_code_errors_witness :
    (pyUpper "ABCD" = "ABCD" ∧ dcontains stOneW.rooms "ABCD" = true) ∧
    ∃ msg, handle_create_room 5 stOneW 7 "p2" ⟨some "ABCD", none, none⟩ =
      (stOneW, [(7, Payload.json (ServerMsg.room_error msg) 5)]) :=
  ⟨⟨by decide, by decide⟩,
    create_room_existing_code_errors 5 7 "p2" "ABCD" none none stOneW
      (by decide) (by decide)⟩

end Republic
